import Mathlib

/-!
Shallow embedding of the taskinator voice-moderation bot (src/bot.rs,
src/context.rs, src/main.rs, src/utils.rs) and proofs about its
reconciliation engine: the game-record store, the identity matcher, the
lifecycle state machine and the mutation batcher.

Discord snowflake identifiers are modelled as natural numbers; the remote
HTTP calls issued by an orchestration routine are reified as lists of
request values, in the order the code pushes them.
-/

/-- Discord user identifier (snowflake). -/
abbrev UserId := Nat

/-- Discord channel identifier (snowflake). -/
abbrev ChannelId := Nat

/-- Discord guild identifier (snowflake). -/
abbrev GuildId := Nat

/-- Discord message identifier (snowflake). -/
abbrev MessageId := Nat

/-- Discord role identifier (snowflake). -/
abbrev RoleId := Nat

/-- Modelled from the spec: the `Player` type of the external
`taskinator_communicator::game` crate (not under src/); the code reads
exactly the fields `name`, `dead`, `impostor`. -/
structure Player where
  name : String
  dead : Bool
  impostor : Bool
deriving DecidableEq, Repr

/-- Modelled from the spec: the `MeetingState` enum of the external
`taskinator_communicator::game` crate. `bot.rs` matches the variants
`Discussion`, `NotVoted`, `Voted`, `Results` as "in a meeting" and treats
any other `InGame` observation as plain gameplay; the spec names that
remaining variant "none" (here `noMeeting`). -/
inductive MeetingState where
  | noMeeting
  | discussion
  | notVoted
  | voted
  | results
deriving DecidableEq, Repr

/-- Modelled from the spec: the `State` enum of the external
`taskinator_communicator::game` crate: `Lobby{players}`, `Menu`,
`InGame{players, meeting}`. -/
inductive State where
  | lobby (players : List Player)
  | menu
  | inGame (players : List Player) (meeting : MeetingState)
deriving DecidableEq, Repr

/-- The `BotState` enum of bot.rs:31-36: the lifecycle phase held by the
game-state watcher loop. -/
inductive BotState where
  | preGame
  | inGame
  | inMeeting
  | gameOver
deriving DecidableEq, Repr

/-- A cached guild member as used by the code (`CachedMember` plus its
`User`): user id, guild id, optional nickname, account name, bot flag,
role list and current server-mute flag. -/
structure Member where
  userId : UserId
  guildId : GuildId
  nick : Option String
  userName : String
  bot : Bool
  roles : List RoleId
  mute : Bool
deriving DecidableEq, Repr

/-- One `update_guild_member` request: the builder's `.mute(b)` sets
`mute := some b` and `.channel_id(c)` sets `channel := some c`; a field
left `none` is not touched by the request. -/
structure Request where
  guild : GuildId
  user : UserId
  mute : Option Bool
  channel : Option ChannelId
deriving DecidableEq, Repr

/-- A remote call issued by `Context::end_game`: either a guild-member
update or the deletion of the standing control message. -/
inductive RemoteCall where
  | updateMember (r : Request)
  | deleteMessage (channel : ChannelId) (msg : MessageId)
deriving DecidableEq, Repr

/-- The `Game` record of context.rs (and, minus `guild_id`, of main.rs):
the single in-memory record of an active round. The `HashSet<UserId>`
`dead` is modelled as a duplicate-free list built by `insertDead`. -/
structure Game where
  dead : List UserId
  ctrlChannel : ChannelId
  ctrlMsg : MessageId
  ctrlUser : UserId
  guildId : GuildId
  meetingInProgress : Bool
deriving DecidableEq, Repr

/-- A chat message as far as the store cares: channel, id, author
(`msg.channel_id`, `msg.id`, `msg.author.id`). -/
structure Msg where
  channelId : ChannelId
  id : MessageId
  authorId : UserId
deriving DecidableEq, Repr

/-- `HashSet::insert`: the set is unchanged when the element is present,
otherwise the element is added. -/
def insertDead (u : UserId) (l : List UserId) : List UserId :=
  if l.contains u then l else u :: l

/-- `Context::start_game` (context.rs:112-121): unconditionally
`replace`s the stored record with a fresh one built from the control
message and guild id. -/
def Context.start_game (g : Option Game) (msg : Msg) (guildId : GuildId) :
    Option Game :=
  let _ := g
  some { dead := [], ctrlChannel := msg.channelId, ctrlMsg := msg.id,
         ctrlUser := msg.authorId, guildId := guildId,
         meetingInProgress := false }

/-- `Context::make_dead` (context.rs:79-92): no-op when no game is
active; otherwise inserts the target into `dead` and issues a mute
request iff the insertion was new and a meeting is in progress. -/
def Context.make_dead (g : Option Game) (target : UserId) :
    Option Game × List Request :=
  match g with
  | none => (none, [])
  | some game =>
      (some { game with dead := insertDead target game.dead },
       if !game.dead.contains target && game.meetingInProgress then
         [{ guild := game.guildId, user := target, mute := some true,
            channel := none }]
       else [])

/-- `Context::end_game` (context.rs:228-264): when a record is present it
is taken (leaving `none`), the control message is deleted and every
living-channel occupant is unmuted while every dead-channel occupant is
moved back to the living channel; when no record is present the function
returns immediately with no remote calls. -/
def Context.end_game (g : Option Game) (living dead : List Member)
    (livingChannel : ChannelId) : Option Game × List RemoteCall :=
  match g with
  | none => (none, [])
  | some game =>
      (none,
       RemoteCall.deleteMessage game.ctrlChannel game.ctrlMsg ::
         (living.map (fun m =>
            RemoteCall.updateMember
              { guild := m.guildId, user := m.userId, mute := some false,
                channel := none }) ++
          dead.map (fun m =>
            RemoteCall.updateMember
              { guild := m.guildId, user := m.userId, mute := none,
                channel := some livingChannel })))

/-- `Result::is_ok` on a batch outcome. -/
def exceptIsOk {ε α : Type} : Except ε α → Bool
  | Except.ok _ => true
  | Except.error _ => false

/-- Projection of a successful batch outcome. -/
def exceptOk {ε α : Type} : Except ε α → Option α
  | Except.ok a => some a
  | Except.error _ => none

/-- Projection of a failed batch outcome. -/
def exceptErr {ε α : Type} : Except ε α → Option ε
  | Except.ok _ => none
  | Except.error e => some e

/-- `Bot::batch` (bot.rs:579-607) after `join_all` has produced the list
of outcomes: partition by `is_ok`, collect the errors, send exactly one
"Errors occurred during batch operation" message when the error set is
non-empty, and return the successes. The third component counts the
notification messages sent. -/
def Bot.batch {ε α : Type} (results : List (Except ε α)) :
    List α × List ε × Nat :=
  let parts := results.partition exceptIsOk
  let errors := parts.2.filterMap exceptErr
  (parts.1.filterMap exceptOk, errors, if errors.isEmpty then 0 else 1)

/-- `Context::batch` (context.rs:47-69) after `join_all`: collect the
errors; when the error set is non-empty a single "errors occurred"
message is sent, but only if an active game provides a control channel
(`if let Some(channel) = self.game.read()...`). Returns the error list
and the number of notification messages sent. -/
def Context.batch {ε α : Type} (gameActive : Bool)
    (results : List (Except ε α)) : List ε × Nat :=
  let errors := results.filterMap exceptErr
  (errors, if !errors.isEmpty then (if gameActive then 1 else 0) else 0)

/-- `KnownAs::known_as` (utils.rs:11-18): the member's nickname when
present, otherwise the underlying account name. -/
def known_as (nick : Option String) (userName : String) : String :=
  match nick with
  | some n => n
  | none => userName

/-- The lookup key used by `Bot::match_members_to_players`
(bot.rs:547-550): the operator-assigned alias from `player_names` when
present, else `known_as`. -/
def Bot.lookup_key (aliases : UserId → Option String) (m : Member) :
    String :=
  match aliases m.userId with
  | some ign => ign
  | none => known_as m.nick m.userName

/-- The per-member matching step of `Bot::match_members_to_players`
(bot.rs:552-561): `players.iter().find_map(...)` returns the first player
whose name equals the lookup key, by exact string equality. -/
def Bot.match_one (aliases : UserId → Option String)
    (players : List Player) (m : Member) : Option Player :=
  players.findSome? fun p =>
    if p.name = Bot.lookup_key aliases m then some p else none

/-- `Bot::match_members_to_players` (bot.rs:533-566), in the branch where
the observed state carries a player roster: pair every member with its
(optional) matched player. -/
def match_members_to_players (aliases : UserId → Option String)
    (players : List Player) (members : List Member) :
    List (Member × Option Player) :=
  members.map fun m => (m, Bot.match_one aliases players m)

/-- `Bot::start_meeting` (bot.rs:320-349): living-channel members matched
to a non-dead player get `mute(false)`; members matched to a dead player
or unmatched get nothing; every dead-channel member is moved to the
living channel with `mute(true)`. -/
def start_meeting (aliases : UserId → Option String)
    (players : List Player) (living dead : List Member)
    (livingChannel : ChannelId) : List Request :=
  (match_members_to_players aliases players living).filterMap
    (fun mp =>
      match mp.2 with
      | some p =>
          if !p.dead then
            some { guild := mp.1.guildId, user := mp.1.userId,
                   mute := some false, channel := none }
          else none
      | none => none) ++
  dead.map fun m =>
    { guild := m.guildId, user := m.userId, mute := some true,
      channel := some livingChannel }

/-- The request `Bot::start_meeting` issues for one living-channel
member: an un-mute when the member is matched to a living player,
nothing when it is matched to a dead player or unmatched. -/
def startMeetingLivingReq (aliases : UserId → Option String)
    (players : List Player) (mem : Member) : Option Request :=
  match Bot.match_one aliases players mem with
  | some p =>
      if !p.dead then
        some { guild := mem.guildId, user := mem.userId,
               mute := some false, channel := none }
      else none
  | none => none

/-- The request `Bot::start_meeting` issues for one dead-channel member:
move to the living channel, muted. -/
def startMeetingDeadReq (livingChannel : ChannelId) (mem : Member) :
    Request :=
  { guild := mem.guildId, user := mem.userId, mute := some true,
    channel := some livingChannel }

/-- `Bot::mute_players` (bot.rs:415-437): living-channel members matched
to a dead player are moved to the dead channel and unmuted; members
matched to a living player are muted; unmatched members get nothing. -/
def mute_players (aliases : UserId → Option String)
    (players : List Player) (living : List Member)
    (deadChannel : ChannelId) : List Request :=
  (match_members_to_players aliases players living).filterMap fun mp =>
    match mp.2 with
    | some p =>
        if p.dead then
          some { guild := mp.1.guildId, user := mp.1.userId,
                 mute := some false, channel := some deadChannel }
        else
          some { guild := mp.1.guildId, user := mp.1.userId,
                 mute := some true, channel := none }
    | none => none

/-- The request `Bot::mute_players` issues for one living-channel
member: move-to-dead-channel and un-mute for a member matched to a dead
player, mute for a member matched to a living player, nothing for an
unmatched member. -/
def mutePlayersReq (aliases : UserId → Option String)
    (players : List Player) (deadChannel : ChannelId) (mem : Member) :
    Option Request :=
  match Bot.match_one aliases players mem with
  | some p =>
      if p.dead then
        some { guild := mem.guildId, user := mem.userId,
               mute := some false, channel := some deadChannel }
      else
        some { guild := mem.guildId, user := mem.userId,
               mute := some true, channel := none }
  | none => none

/-- `Bot::end_game` (bot.rs:389-413): every living-channel member gets
`mute(false)`; every dead-channel member is moved to the living channel
(mute untouched). -/
def Bot.end_game_requests (living dead : List Member)
    (livingChannel : ChannelId) : List Request :=
  living.map (fun m =>
    { guild := m.guildId, user := m.userId, mute := some false,
      channel := none }) ++
  dead.map fun m =>
    { guild := m.guildId, user := m.userId, mute := none,
      channel := some livingChannel }

/-- The round-conclusion judgement of `Bot::end_meeting`
(bot.rs:356-370), `InGame` case: partition the living players into
impostors and crew; the game is over when there are no living impostors
or the living impostors are at least as many as the living crew. -/
def gameOver (players : List Player) : Bool :=
  let living := players.filter fun p => !p.dead
  let parts := living.partition fun p => p.impostor
  parts.1.isEmpty || decide (parts.2.length ≤ parts.1.length)

/-- The full judgement of `Bot::end_meeting` (bot.rs:356-370): an
observed state that is not `InGame` (lobby, menu, or a closed feed)
counts as game over. -/
def end_meeting_game_over (obs : Option State) : Bool :=
  match obs with
  | some (State.inGame players _) => gameOver players
  | _ => true

/-- How `Bot::end_meeting` resolves: route to end-game orchestration, or
stay in the round and re-mute (`mute_players`). -/
inductive MeetingOutcome where
  | toEndGame
  | reMute
deriving DecidableEq, Repr

/-- `Bot::end_meeting` (bot.rs:351-381): when the round is judged over,
set phase `GameOver` and invoke `end_game`; otherwise set phase `InGame`
and re-mute via `mute_players`. -/
def end_meeting (obs : Option State) : BotState × MeetingOutcome :=
  if end_meeting_game_over obs then (BotState.gameOver, .toEndGame)
  else (BotState.inGame, .reMute)

/-- The orchestration routines the watcher loop can invoke. -/
inductive Orch where
  | startGame
  | startMeeting
  | endMeeting
  | endGame
deriving DecidableEq, Repr

/-- The guard of the first watcher arm (bot.rs:234-242): those
`MeetingState` variants that count as "in a meeting". -/
def isMeetingPhase : MeetingState → Bool
  | .discussion => true
  | .notVoted => true
  | .voted => true
  | .results => true
  | .noMeeting => false

/-- The orchestration tail of an `end_meeting` resolution: routing to
end-game invokes `end_game`, re-muting invokes none beyond the
end-meeting routine itself. -/
def meetingOutcomeOrchs : MeetingOutcome → List Orch
  | .toEndGame => [Orch.endGame]
  | .reMute => []

/-- The first watcher arm (bot.rs:234-249): a meeting sub-state moves
`PreGame`/`InGame` to `InMeeting` and starts the meeting; in any other
phase nothing happens. -/
def stepMeeting (s : BotState) : BotState × List Orch :=
  match s with
  | .preGame => (.inMeeting, [.startMeeting])
  | .inGame => (.inMeeting, [.startMeeting])
  | .inMeeting => (.inMeeting, [])
  | .gameOver => (.gameOver, [])

/-- The gameplay watcher arm (bot.rs:250-262): `InMeeting` runs
`end_meeting` (which also decides the next phase); `PreGame` moves to
`InGame` and starts the game; otherwise nothing happens. -/
def stepGameplay (s : BotState) (obs : Option State) :
    BotState × List Orch :=
  match s with
  | .inMeeting =>
      ((end_meeting obs).1,
       Orch.endMeeting :: meetingOutcomeOrchs (end_meeting obs).2)
  | .preGame => (.inGame, [.startGame])
  | .inGame => (.inGame, [])
  | .gameOver => (.gameOver, [])

/-- The no-round watcher arm (bot.rs:263-273): `InGame`/`InMeeting` fall
back to `PreGame` and end the game; `GameOver` resolves to `PreGame`
silently. -/
def stepNoRound (s : BotState) : BotState × List Orch :=
  match s with
  | .inGame => (.preGame, [.endGame])
  | .inMeeting => (.preGame, [.endGame])
  | .gameOver => (.preGame, [])
  | .preGame => (.preGame, [])

/-- One iteration of the game-state watcher loop (bot.rs:226-276): given
the current `BotState` and the freshly observed value, produce the next
`BotState` and the orchestration routines invoked, in order. -/
def step (s : BotState) (obs : Option State) : BotState × List Orch :=
  match obs with
  | some (State.inGame ps meeting) =>
      if isMeetingPhase meeting then stepMeeting s
      else stepGameplay s (some (State.inGame ps meeting))
  | _ => stepNoRound s

/-- Feed a sequence of observations through the watcher loop, collecting
every orchestration invocation. -/
def run (s : BotState) (obss : List (Option State)) :
    BotState × List Orch :=
  match obss with
  | [] => (s, [])
  | o :: rest =>
      let r := step s o
      let r2 := run r.1 rest
      (r2.1, r.2 ++ r2.2)

/-- The `BotState` after each observation of a sequence. -/
def runStates (s : BotState) (obss : List (Option State)) :
    List BotState :=
  match obss with
  | [] => []
  | o :: rest =>
      let r := step s o
      r.1 :: runStates r.1 rest

/-- `Context::get_members_in_channel` (context.rs:127-139) applied to the
cached occupants of a channel: drop bots and holders of the spectator
role. -/
def Context.get_members_in_channel (spectatorRole : RoleId)
    (members : List Member) : List Member :=
  members.filter fun m => !m.bot && !m.roles.contains spectatorRole

/-- `get_members_in_channel` of main.rs:369-381: drop bots and holders of
the spectator role. -/
def main_get_members_in_channel (spectatorRole : RoleId)
    (members : List Member) : List Member :=
  members.filter fun m => !m.bot && !m.roles.contains spectatorRole

/-- `Bot::get_members_in_channel` (bot.rs:568-577): drop bots only. -/
def Bot.get_members_in_channel (members : List Member) : List Member :=
  members.filter fun m => !m.bot

/-- The authorization check of the `"dead"` (and `"end"`) branch of
`process_command` (main.rs:305-308): `game.is_some() &&
game.as_ref().map(|g| g.ctrl_user == msg.author.id).unwrap()`. -/
def deadAuth (g : Option Game) (author : UserId) : Bool :=
  match g with
  | some game => game.ctrlUser == author
  | none => false

/-- `Context::is_in_control` (context.rs:94-102): owners, or the active
round's control user. -/
def Context.is_in_control (owners : List UserId) (g : Option Game)
    (u : UserId) : Bool :=
  owners.contains u ||
    (match g with
     | some game => game.ctrlUser == u
     | none => false)

/-- The user-visible reply of the `"dead"` command branch. -/
inductive DeadResp where
  | rejection
  | noTarget
  | noGame
  | deadified (target : UserId)
deriving DecidableEq, Repr

/-- The `"dead"` branch of `process_command` (main.rs:296-361): without
authorization reply with a rejection and change nothing; with
authorization but no parseable target reply "Must specify target"; with a
target, insert it into the dead set and issue a mute request iff the
member cache holds the target and it is not already server-muted.
Returns the new game record, the mute requests issued and the reply. -/
def process_dead (g : Option Game) (author : UserId)
    (targetArg : Option UserId) (cacheMember : UserId → Option Member) :
    Option Game × List Request × DeadResp :=
  if deadAuth g author then
    match targetArg with
    | some target =>
        match g with
        | some game =>
            (some { game with dead := insertDead target game.dead },
             (match cacheMember target with
              | some mem =>
                  if !mem.mute then
                    [{ guild := mem.guildId, user := mem.userId,
                       mute := some true, channel := none }]
                  else []
              | none => []),
             .deadified target)
        | none => (none, [], .noGame)
    | none => (g, [], .noTarget)
  else (g, [], .rejection)

/-- The requests of a batch that target a given user. -/
def requestsFor (u : UserId) (reqs : List Request) : List Request :=
  reqs.filter fun r => r.user == u

/-- Stated from the spec's words for C3: the living impostors of a
roster. -/
def livingImpostors (players : List Player) : List Player :=
  players.filter fun p => !p.dead && p.impostor

/-- Stated from the spec's words for C3: the living crew of a roster. -/
def livingCrew (players : List Player) : List Player :=
  players.filter fun p => !p.dead && !p.impostor

/-- Stated from the spec's words for C3: the round has concluded when the
roster has no living impostors or the living impostors are at least as
many as the living crew. -/
def roundConcludedSpec (players : List Player) : Prop :=
  livingImpostors players = [] ∨
    (livingCrew players).length ≤ (livingImpostors players).length

/-- A roster with one living impostor and two living crew: the round is
not concluded. -/
def psW1 : List Player :=
  [{ name := "i", dead := false, impostor := true },
   { name := "a", dead := false, impostor := false },
   { name := "b", dead := false, impostor := false }]

/-- An active game record used in concrete instantiations. -/
def gameW : Game :=
  { dead := [5], ctrlChannel := 1, ctrlMsg := 2, ctrlUser := 3,
    guildId := 4, meetingInProgress := true }

/-- A game record whose control user is 3. -/
def gameC8 : Game :=
  { dead := [], ctrlChannel := 1, ctrlMsg := 2, ctrlUser := 3,
    guildId := 4, meetingInProgress := false }

/-- A living-channel occupant whose account name is "alice". -/
def memC : Member :=
  { userId := 1, guildId := 9, nick := none, userName := "alice",
    bot := false, roles := [], mute := false }

/-- A dead in-game player named "alice". -/
def playerC : Player := { name := "alice", dead := true, impostor := false }

/-- A dead-channel occupant. -/
def memD : Member :=
  { userId := 2, guildId := 9, nick := none, userName := "dd",
    bot := false, roles := [], mute := false }

/-- An alias table assigning user 1 the in-game name "Alice". -/
def aliasesW : UserId → Option String :=
  fun u => if u = 1 then some "Alice" else none

/-- A member with a nickname distinct from both alias and account name. -/
def memberW : Member :=
  { userId := 1, guildId := 9, nick := some "Nick", userName := "Acct",
    bot := false, roles := [], mute := false }

/-- A roster containing a decoy and the aliased player. -/
def playersW : List Player :=
  [{ name := "Bob", dead := false, impostor := false },
   { name := "Alice", dead := false, impostor := true }]

/-- A non-bot member holding role 42 (the spectator role in concrete
instantiations). -/
def spectatorW : Member :=
  { userId := 2, guildId := 9, nick := none, userName := "spec",
    bot := false, roles := [42], mute := false }

/-! ## Shared lemmas -/

theorem mem_insertDead (u v : UserId) (l : List UserId) :
    v ∈ insertDead u l ↔ v = u ∨ v ∈ l := by
  unfold insertDead
  split
  · rename_i h
    constructor
    · exact Or.inr
    · rintro (rfl | hv)
      · simpa using h
      · exact hv
  · simp [List.mem_cons]

/-! ## C4: start_game with an existing record -/

/-- C4 counterexample: from a state holding an active record,
`Context::start_game` neither fails nor leaves the store alone — it
installs a fresh record (here with the new control data), so "startGame
fails and does not create a new record" is false on the code. -/
theorem start_game_existing_record_counterexample :
    Context.start_game (some gameW) { channelId := 10, id := 11, authorId := 12 } 7
      = some { dead := [], ctrlChannel := 10, ctrlMsg := 11, ctrlUser := 12,
               guildId := 7, meetingInProgress := false }
    ∧ (some { dead := [], ctrlChannel := 10, ctrlMsg := 11, ctrlUser := 12,
              guildId := 7, meetingInProgress := false } : Option Game) ≠ some gameW := by
  exact ⟨rfl, by decide⟩

/-- C4 amended: `Context::start_game` never fails; it unconditionally
replaces whatever record exists with a fresh one built from the message
(empty dead set, meeting flag off), and its result is independent of the
prior record. -/
theorem start_game_unconditional_replace (g : Option Game) (msg : Msg)
    (gid : GuildId) :
    Context.start_game g msg gid = Context.start_game none msg gid
    ∧ (Context.start_game g msg gid).isSome = true
    ∧ Context.start_game g msg gid
        = some { dead := [], ctrlChannel := msg.channelId, ctrlMsg := msg.id,
                 ctrlUser := msg.authorId, guildId := gid,
                 meetingInProgress := false } :=
  ⟨rfl, rfl, rfl⟩

/-! ## C7: end-game idempotence -/

/-- C7: a second invocation of `Context::end_game`, which finds the
record already removed, performs no remote calls at all; and with no
active record `end_game` removes nothing and performs nothing. -/
theorem end_game_idempotent (g : Option Game) (l d l2 d2 : List Member)
    (ch ch2 : ChannelId) :
    (Context.end_game (Context.end_game g l d ch).1 l2 d2 ch2).2 = []
    ∧ Context.end_game none l d ch = (none, []) := by
  cases g <;> exact ⟨rfl, rfl⟩

/-! ## C10: make_dead frame and effects -/

/-- C10: `Context::make_dead` is a no-op without an active game; with an
active game the only state change is adding the target to the dead set
(all other record fields unchanged), and exactly one remote mute request
is issued iff the target was not already dead and a meeting is in
progress. -/
theorem make_dead_frame (g : Option Game) (target : UserId) :
    Context.make_dead none target = (none, [])
    ∧ ∀ game, g = some game →
        ∃ game', Context.make_dead g target
            = (some game',
               if !game.dead.contains target && game.meetingInProgress then
                 [{ guild := game.guildId, user := target,
                    mute := some true, channel := none }]
               else [])
          ∧ (∀ u, u ∈ game'.dead ↔ u = target ∨ u ∈ game.dead)
          ∧ game'.ctrlChannel = game.ctrlChannel
          ∧ game'.ctrlMsg = game.ctrlMsg
          ∧ game'.ctrlUser = game.ctrlUser
          ∧ game'.guildId = game.guildId
          ∧ game'.meetingInProgress = game.meetingInProgress := by
  refine ⟨rfl, ?_⟩
  rintro game rfl
  exact ⟨{ game with dead := insertDead target game.dead }, rfl,
    fun u => mem_insertDead target u game.dead, rfl, rfl, rfl, rfl, rfl⟩

/-- C10 witness: `make_dead` at a concrete record and target. -/
theorem make_dead_frame_witness :
    Context.make_dead none 42 = (none, [])
    ∧ ∀ game, (some gameW : Option Game) = some game →
        ∃ game', Context.make_dead (some gameW) 42
            = (some game',
               if !game.dead.contains 42 && game.meetingInProgress then
                 [{ guild := game.guildId, user := 42,
                    mute := some true, channel := none }]
               else [])
          ∧ (∀ u, u ∈ game'.dead ↔ u = 42 ∨ u ∈ game.dead)
          ∧ game'.ctrlChannel = game.ctrlChannel
          ∧ game'.ctrlMsg = game.ctrlMsg
          ∧ game'.ctrlUser = game.ctrlUser
          ∧ game'.guildId = game.guildId
          ∧ game'.meetingInProgress = game.meetingInProgress :=
  make_dead_frame (some gameW) 42

/-! ## C2: batch partial failure -/

theorem exceptIsOk_ok {ε α : Type} (a : α) :
    exceptIsOk (ε := ε) (Except.ok a) = true := rfl

theorem exceptIsOk_error {ε α : Type} (e : ε) :
    exceptIsOk (α := α) (Except.error e) = false := rfl

theorem exceptOk_ok {ε α : Type} (a : α) :
    exceptOk (ε := ε) (Except.ok a) = some a := rfl

theorem exceptOk_error {ε α : Type} (e : ε) :
    exceptOk (α := α) (Except.error e) = none := rfl

theorem exceptErr_ok {ε α : Type} (a : α) :
    exceptErr (ε := ε) (Except.ok a) = none := rfl

theorem exceptErr_error {ε α : Type} (e : ε) :
    exceptErr (α := α) (Except.error e) = some e := rfl

theorem filter_not_ok_filterMap_err {ε α : Type} (rs : List (Except ε α)) :
    (rs.filter fun r => !exceptIsOk r).filterMap exceptErr
      = rs.filterMap exceptErr := by
  induction rs with
  | nil => rfl
  | cons r t ih =>
      cases r <;>
        simp [exceptIsOk_ok, exceptIsOk_error, exceptErr_ok, exceptErr_error, ih]

theorem filter_ok_filterMap_ok {ε α : Type} (rs : List (Except ε α)) :
    (rs.filter exceptIsOk).filterMap exceptOk = rs.filterMap exceptOk := by
  induction rs with
  | nil => rfl
  | cons r t ih =>
      cases r <;>
        simp [exceptIsOk_ok, exceptIsOk_error, exceptOk_ok, exceptOk_error, ih]

theorem err_length_countP {ε α : Type} (rs : List (Except ε α)) :
    (rs.filterMap exceptErr).length = rs.countP fun r => !exceptIsOk r := by
  induction rs with
  | nil => rfl
  | cons r t ih =>
      cases r <;>
        simp [exceptIsOk_ok, exceptIsOk_error, exceptErr_ok, exceptErr_error,
          List.countP_cons, ih]

theorem ok_err_length {ε α : Type} (rs : List (Except ε α)) :
    (rs.filterMap exceptOk).length + (rs.filterMap exceptErr).length
      = rs.length := by
  induction rs with
  | nil => rfl
  | cons r t ih =>
      cases r <;>
        simp [exceptOk_ok, exceptOk_error, exceptErr_ok, exceptErr_error, ih] <;>
        omega

theorem bot_batch_eq {ε α : Type} (rs : List (Except ε α)) :
    Bot.batch rs
      = (rs.filterMap exceptOk, rs.filterMap exceptErr,
         if (rs.filterMap exceptErr).length = 0 then 0 else 1) := by
  simp only [Bot.batch, List.partition_eq_filter_filter, Function.comp_def]
  rw [filter_ok_filterMap_ok, filter_not_ok_filterMap_err]
  cases h : rs.filterMap exceptErr <;> simp [h]

/-- C2 counterexample: a batch of N = 1 requests of which k = 1 fail,
run through `Context::batch` while no game record is active (exactly the
situation of the `end_game` batch, which runs after the record has been
taken): the failure is reported but zero aggregated notifications are
emitted, not one. -/
theorem batch_notification_counterexample :
    (Context.batch false [(Except.error "boom" : Except String Unit)]).1.length = 1
    ∧ (Context.batch false [(Except.error "boom" : Except String Unit)]).2 = 0 :=
  ⟨rfl, rfl⟩

/-- C2 amended: for every batch of N outcomes of which exactly k fail,
both batchers report exactly the k failures and keep all N − k successes
(no rollback, no abort of siblings); `Bot::batch` emits exactly one
aggregated notification when k > 0 and none when k = 0, while
`Context::batch` emits the single notification only when additionally a
game record is active (none otherwise, in particular none for the
end-game batch). -/
theorem batch_partial_failure {ε α : Type} (rs : List (Except ε α))
    (gameActive : Bool) :
    (Bot.batch rs).2.1.length = (rs.countP fun r => !exceptIsOk r)
    ∧ (Bot.batch rs).1.length + (Bot.batch rs).2.1.length = rs.length
    ∧ (Bot.batch rs).1 = rs.filterMap exceptOk
    ∧ (Bot.batch rs).2.2
        = (if (rs.countP fun r => !exceptIsOk r) = 0 then 0 else 1)
    ∧ (Context.batch gameActive rs).1.length
        = (rs.countP fun r => !exceptIsOk r)
    ∧ (Context.batch gameActive rs).2
        = (if (rs.countP fun r => !exceptIsOk r) = 0 then 0
           else if gameActive then 1 else 0) := by
  rw [bot_batch_eq]
  refine ⟨err_length_countP rs, ?_, rfl, ?_, ?_, ?_⟩
  · exact ok_err_length rs
  · rw [err_length_countP]
  · simpa [Context.batch] using err_length_countP rs
  · simp only [Context.batch]
    rcases h : rs.filterMap exceptErr with _ | ⟨e, t⟩
    · have : (rs.countP fun r => !exceptIsOk r) = 0 := by
        rw [← err_length_countP, h]; rfl
      simp [this]
    · have : (rs.countP fun r => !exceptIsOk r) ≠ 0 := by
        rw [← err_length_countP, h]; simp
      simp [h, this]

/-! ## C3: end-meeting round conclusion -/

theorem living_filter_imp (ps : List Player) :
    (ps.filter fun p => !p.dead).filter (fun p => p.impostor)
      = livingImpostors ps := by
  induction ps with
  | nil => rfl
  | cons p t ih =>
      by_cases hd : p.dead <;> by_cases hi : p.impostor <;>
        simp [livingImpostors, hd, hi] <;>
        simpa [livingImpostors] using ih

theorem living_filter_crew (ps : List Player) :
    (ps.filter fun p => !p.dead).filter (fun p => !p.impostor)
      = livingCrew ps := by
  induction ps with
  | nil => rfl
  | cons p t ih =>
      by_cases hd : p.dead <;> by_cases hi : p.impostor <;>
        simp [livingCrew, hd, hi] <;>
        simpa [livingCrew] using ih

/-- C3: the round-conclusion judgement of `Bot::end_meeting` holds
exactly when the roster has no living impostors or at least as many
living impostors as living crew; when it holds `end_meeting` sets phase
`GameOver` and routes to end-game orchestration instead of re-muting,
otherwise it sets phase `InGame` and re-mutes; and on the roster of one
dead impostor and three living crew it detects game over and routes to
end-game. -/
theorem end_meeting_round_conclusion (ps : List Player) (m : MeetingState) :
    (gameOver ps = true ↔ roundConcludedSpec ps)
    ∧ end_meeting (some (State.inGame ps m))
        = (if gameOver ps then (BotState.gameOver, MeetingOutcome.toEndGame)
           else (BotState.inGame, MeetingOutcome.reMute))
    ∧ gameOver
        [{ name := "imp", dead := true, impostor := true },
         { name := "c1", dead := false, impostor := false },
         { name := "c2", dead := false, impostor := false },
         { name := "c3", dead := false, impostor := false }] = true
    ∧ end_meeting
        (some (State.inGame
          [{ name := "imp", dead := true, impostor := true },
           { name := "c1", dead := false, impostor := false },
           { name := "c2", dead := false, impostor := false },
           { name := "c3", dead := false, impostor := false }] m))
        = (BotState.gameOver, MeetingOutcome.toEndGame) := by
  refine ⟨?_, ?_, by decide, ?_⟩
  · simp only [gameOver, List.partition_eq_filter_filter, Function.comp_def]
    rw [living_filter_imp, living_filter_crew]
    simp [roundConcludedSpec, List.isEmpty_iff]
  · unfold end_meeting end_meeting_game_over
    rfl
  · unfold end_meeting end_meeting_game_over
    norm_num [show gameOver
        [{ name := "imp", dead := true, impostor := true },
         { name := "c1", dead := false, impostor := false },
         { name := "c2", dead := false, impostor := false },
         { name := "c3", dead := false, impostor := false }] = true from by decide]

/-! ## C6: identity matcher -/

theorem match_one_eq_find (aliases : UserId → Option String)
    (players : List Player) (m : Member) :
    Bot.match_one aliases players m
      = players.find? fun p => p.name == Bot.lookup_key aliases m := by
  induction players with
  | nil => rfl
  | cons p t ih =>
      by_cases h : p.name = Bot.lookup_key aliases m
      · simp [Bot.match_one, List.findSome?_cons, h, List.find?_cons]
      · have hb : (p.name == Bot.lookup_key aliases m) = false := by
          simpa using h
        simp only [Bot.match_one, List.findSome?_cons, List.find?_cons, hb,
          if_neg h, cond_false]
        exact ih

theorem find?_first {α : Type} (pred : α → Bool) (l₁ l₂ : List α) (a : α)
    (ha : pred a = true) (h : ∀ q ∈ l₁, pred q = false) :
    (l₁ ++ a :: l₂).find? pred = some a := by
  induction l₁ with
  | nil => simp [List.find?_cons, ha]
  | cons q t ih =>
      have hq := h q (List.mem_cons_self q t)
      simp only [List.cons_append, List.find?_cons, hq, cond_false]
      exact ih fun x hx => h x (List.mem_cons_of_mem q hx)

/-- C6: the lookup key is the operator-assigned alias when present, else
the nickname, else the account name; a member matches the first player
whose name equals the key by exact string equality; a matched player
always bears the key as name and comes from the roster; with no
name-equal player the match is `none`; and
`match_members_to_players` pairs each member with exactly this match. -/
theorem matcher_lookup (aliases : UserId → Option String)
    (players : List Player) (m : Member) :
    (∀ a, aliases m.userId = some a → Bot.lookup_key aliases m = a)
    ∧ (∀ n, aliases m.userId = none → m.nick = some n →
        Bot.lookup_key aliases m = n)
    ∧ (aliases m.userId = none → m.nick = none →
        Bot.lookup_key aliases m = m.userName)
    ∧ (∀ p, Bot.match_one aliases players m = some p →
        p ∈ players ∧ p.name = Bot.lookup_key aliases m)
    ∧ (∀ l₁ p l₂, players = l₁ ++ p :: l₂ →
        p.name = Bot.lookup_key aliases m →
        (∀ q ∈ l₁, q.name ≠ Bot.lookup_key aliases m) →
        Bot.match_one aliases players m = some p)
    ∧ ((∀ p ∈ players, p.name ≠ Bot.lookup_key aliases m) →
        Bot.match_one aliases players m = none)
    ∧ match_members_to_players aliases players [m]
        = [(m, Bot.match_one aliases players m)] := by
  refine ⟨?_, ?_, ?_, ?_, ?_, ?_, rfl⟩
  · intro a ha; simp [Bot.lookup_key, ha]
  · intro n ha hn; simp [Bot.lookup_key, known_as, ha, hn]
  · intro ha hn; simp [Bot.lookup_key, known_as, ha, hn]
  · intro p hp
    rw [match_one_eq_find] at hp
    refine ⟨List.mem_of_find?_eq_some hp, ?_⟩
    have := List.find?_some hp
    simpa using this
  · rintro l₁ p l₂ rfl hname hl₁
    rw [match_one_eq_find]
    refine find?_first _ l₁ l₂ p (by simpa using hname) ?_
    intro q hq
    simpa using hl₁ q hq
  · intro h
    rw [match_one_eq_find, List.find?_eq_none]
    intro x hx
    simpa using h x hx

/-- C6 witness: user 1 carries the alias "Alice", overriding both
nickname and account name; the roster lists a decoy "Bob" first, so the
first "Alice"-named player is matched. -/
theorem matcher_lookup_witness :
    Bot.lookup_key aliasesW memberW = "Alice"
    ∧ Bot.match_one aliasesW playersW memberW
        = some { name := "Alice", dead := false, impostor := true } := by
  have h := matcher_lookup aliasesW playersW memberW
  refine ⟨h.1 "Alice" (by decide), ?_⟩
  refine h.2.2.2.2.1 [{ name := "Bob", dead := false, impostor := false }]
    { name := "Alice", dead := false, impostor := true } [] rfl (by decide) ?_
  intro q hq
  simp only [List.mem_singleton] at hq
  subst hq
  decide

/-! ## C9: occupant filtering -/

/-- C9 counterexample: a non-bot member holding the spectator role (42)
is kept by `Bot::get_members_in_channel` (bot.rs filters on the bot flag
only), so "every list of occupants produced for orchestration excludes
spectator-role members" is false on the code; the context.rs/main.rs
variants do exclude it. -/
theorem spectator_included_counterexample :
    Bot.get_members_in_channel [spectatorW] = [spectatorW]
    ∧ spectatorW.roles.contains 42 = true
    ∧ spectatorW.bot = false
    ∧ Context.get_members_in_channel 42 [spectatorW] = [] := by
  refine ⟨by decide, by decide, by decide, by decide⟩

/-! ## C1: lifecycle state machine -/

/-- C1: feeding `Lobby`, `InGame(no meeting)`, `InGame(discussion)`,
`InGame(no meeting)` (with a roster on which the round is not concluded)
through the watcher loop starting at `PreGame` visits the phases
`PreGame, InGame, InMeeting, InGame` and invokes exactly start-game,
then start-meeting, then end-meeting, each once; moreover, for every
state and every observation, processing the same observation a second
time invokes no orchestration routine at all. -/
theorem lifecycle_correct (ps0 ps : List Player)
    (h : gameOver ps = false) :
    runStates BotState.preGame
        [some (State.lobby ps0),
         some (State.inGame ps MeetingState.noMeeting),
         some (State.inGame ps MeetingState.discussion),
         some (State.inGame ps MeetingState.noMeeting)]
      = [BotState.preGame, BotState.inGame, BotState.inMeeting,
         BotState.inGame]
    ∧ (run BotState.preGame
        [some (State.lobby ps0),
         some (State.inGame ps MeetingState.noMeeting),
         some (State.inGame ps MeetingState.discussion),
         some (State.inGame ps MeetingState.noMeeting)]).2
      = [Orch.startGame, Orch.startMeeting, Orch.endMeeting]
    ∧ ∀ s obs, (step (step s obs).1 obs).2 = [] := by
  refine ⟨?_, ?_, ?_⟩
  · simp [runStates, step, stepMeeting, stepGameplay, stepNoRound,
      isMeetingPhase, end_meeting, end_meeting_game_over, h]
  · simp [run, step, stepMeeting, stepGameplay, stepNoRound,
      isMeetingPhase, end_meeting, end_meeting_game_over, h,
      meetingOutcomeOrchs]
  · intro s obs
    match obs with
    | none => cases s <;> rfl
    | some (State.lobby ps') => cases s <;> rfl
    | some State.menu => cases s <;> rfl
    | some (State.inGame ps' mg) =>
        cases hm : isMeetingPhase mg
        · cases s
          · simp [step, hm, stepGameplay]
          · simp [step, hm, stepGameplay]
          · by_cases hg :
              end_meeting_game_over (some (State.inGame ps' mg)) = true
            · simp [step, hm, stepGameplay, end_meeting, hg,
                meetingOutcomeOrchs]
            · simp [step, hm, stepGameplay, end_meeting, hg,
                meetingOutcomeOrchs]
          · simp [step, hm, stepGameplay]
        · cases s <;> simp [step, hm, stepMeeting]

/-- C1 witness: the lifecycle run on the concrete roster of one living
impostor and two living crew. -/
theorem lifecycle_correct_witness :
    gameOver psW1 = false
    ∧ (runStates BotState.preGame
        [some (State.lobby []),
         some (State.inGame psW1 MeetingState.noMeeting),
         some (State.inGame psW1 MeetingState.discussion),
         some (State.inGame psW1 MeetingState.noMeeting)]
      = [BotState.preGame, BotState.inGame, BotState.inMeeting,
         BotState.inGame]
    ∧ (run BotState.preGame
        [some (State.lobby []),
         some (State.inGame psW1 MeetingState.noMeeting),
         some (State.inGame psW1 MeetingState.discussion),
         some (State.inGame psW1 MeetingState.noMeeting)]).2
      = [Orch.startGame, Orch.startMeeting, Orch.endMeeting]
    ∧ ∀ s obs, (step (step s obs).1 obs).2 = []) :=
  ⟨by decide, lifecycle_correct [] psW1 (by decide)⟩

/-! ## C5: start-meeting requests -/

theorem requestsFor_filterMap (f : Member → Option Request)
    (hf : ∀ mem r, f mem = some r → r.user = mem.userId)
    (l : List Member) (hnd : (l.map Member.userId).Nodup)
    (m : Member) (hm : m ∈ l) :
    (l.filterMap f).filter (fun r => r.user == m.userId)
      = (f m).toList := by
  induction l with
  | nil => cases hm
  | cons a t ih =>
      rw [List.map_cons, List.nodup_cons] at hnd
      obtain ⟨hna, hnt⟩ := hnd
      rcases List.mem_cons.mp hm with heq | hmt
      · subst heq
        have htail :
            (t.filterMap f).filter (fun r => r.user == m.userId) = [] := by
          rw [List.filter_eq_nil_iff]
          intro r hr
          obtain ⟨b, hb, hfb⟩ := List.mem_filterMap.mp hr
          have hrb : r.user = b.userId := hf b r hfb
          have : b.userId ≠ m.userId := by
            intro he
            exact hna (he ▸ List.mem_map_of_mem Member.userId hb)
          simp [hrb, this]
        rw [List.filterMap_cons]
        cases hfa : f m with
        | none => simpa using htail
        | some r0 =>
            have hu : r0.user = m.userId := hf m r0 hfa
            simp [List.filter_cons, hu, htail]
      · have hne : a.userId ≠ m.userId := by
          intro he
          exact hna (he ▸ List.mem_map_of_mem Member.userId hmt)
        rw [List.filterMap_cons]
        cases hfa : f a with
        | none => exact ih hnt hmt
        | some r0 =>
            have hu : r0.user = a.userId := hf a r0 hfa
            rw [List.filter_cons]
            have hfalse : (r0.user == m.userId) = false := by
              simp [hu, hne]
            simp only [hfalse, cond_false]
            exact ih hnt hmt

theorem startMeetingLivingReq_user (aliases : UserId → Option String)
    (players : List Player) (mem : Member) (r : Request)
    (h : startMeetingLivingReq aliases players mem = some r) :
    r.user = mem.userId := by
  unfold startMeetingLivingReq at h
  split at h
  · split at h
    · rw [← Option.some.inj h]
    · exact absurd h (by simp)
  · exact absurd h (by simp)

theorem start_meeting_split (aliases : UserId → Option String)
    (players : List Player) (living dead : List Member) (ch : ChannelId) :
    start_meeting aliases players living dead ch
      = living.filterMap (startMeetingLivingReq aliases players)
        ++ dead.map (startMeetingDeadReq ch) := by
  unfold start_meeting match_members_to_players startMeetingLivingReq
    startMeetingDeadReq
  rw [List.filterMap_map]
  rfl

/-- C5 counterexample: the living-channel occupant `memC` is matched to
the dead player `playerC`, yet `Bot::start_meeting` issues no request at
all for it (it is skipped, not moved to the dead channel with mute off),
so the claimed per-occupant outcome and the "exactly one mutation
request per relevant occupant" count are both false on the code. -/
theorem start_meeting_dead_player_counterexample :
    Bot.match_one (fun _ => none) [playerC] memC = some playerC
    ∧ playerC.dead = true
    ∧ start_meeting (fun _ => none) [playerC] [memC] [] 100 = [] := by
  refine ⟨by decide, by decide, by decide⟩

/-- C5 amended: with pairwise-distinct user ids, after start-meeting
orchestration every living-channel occupant matched to a living player
receives exactly one request, un-mute in place; occupants matched to a
dead player or unmatched receive no request (the move to the dead
channel happens at end-meeting, not start-meeting); every dead-channel
occupant receives exactly one request: move to the living channel with
mute on. -/
theorem start_meeting_requests (aliases : UserId → Option String)
    (players : List Player) (living dead : List Member) (ch : ChannelId)
    (hnd : ((living ++ dead).map Member.userId).Nodup) :
    (∀ m ∈ living,
       requestsFor m.userId (start_meeting aliases players living dead ch)
         = (startMeetingLivingReq aliases players m).toList)
    ∧ (∀ m ∈ dead,
       requestsFor m.userId (start_meeting aliases players living dead ch)
         = [startMeetingDeadReq ch m])
    ∧ (∀ m p, Bot.match_one aliases players m = some p → p.dead = false →
        startMeetingLivingReq aliases players m
          = some { guild := m.guildId, user := m.userId,
                   mute := some false, channel := none })
    ∧ (∀ m p, Bot.match_one aliases players m = some p → p.dead = true →
        startMeetingLivingReq aliases players m = none)
    ∧ (∀ m, Bot.match_one aliases players m = none →
        startMeetingLivingReq aliases players m = none) := by
  rw [List.map_append, List.nodup_append] at hnd
  obtain ⟨hl, hd, hdisj⟩ := hnd
  refine ⟨?_, ?_, ?_, ?_, ?_⟩
  · intro m hm
    rw [start_meeting_split]
    unfold requestsFor
    rw [List.filter_append]
    have h1 := requestsFor_filterMap (startMeetingLivingReq aliases players)
      (startMeetingLivingReq_user aliases players) living hl m hm
    have h2 : (dead.map (startMeetingDeadReq ch)).filter
        (fun r => r.user == m.userId) = [] := by
      rw [List.filter_eq_nil_iff]
      intro r hr
      obtain ⟨b, hb, rfl⟩ := List.mem_map.mp hr
      have : b.userId ≠ m.userId := by
        intro he
        exact hdisj (he ▸ List.mem_map_of_mem Member.userId hm)
          (List.mem_map_of_mem Member.userId hb)
      simp [startMeetingDeadReq, this]
    rw [h1, h2, List.append_nil]
  · intro m hm
    rw [start_meeting_split]
    unfold requestsFor
    rw [List.filter_append]
    have h1 : (living.filterMap (startMeetingLivingReq aliases players)).filter
        (fun r => r.user == m.userId) = [] := by
      rw [List.filter_eq_nil_iff]
      intro r hr
      obtain ⟨b, hb, hfb⟩ := List.mem_filterMap.mp hr
      have hrb : r.user = b.userId :=
        startMeetingLivingReq_user aliases players b r hfb
      have : b.userId ≠ m.userId := by
        intro he
        exact hdisj (List.mem_map_of_mem Member.userId hb)
          (he ▸ List.mem_map_of_mem Member.userId hm)
      simp [hrb, this]
    have h2 : dead.map (startMeetingDeadReq ch)
        = dead.filterMap (some ∘ startMeetingDeadReq ch) :=
      (congrFun (List.filterMap_eq_map (startMeetingDeadReq ch)) dead).symm
    have h3 := requestsFor_filterMap (some ∘ startMeetingDeadReq ch)
      (fun mem r hr => by cases hr; rfl) dead hd m hm
    rw [h1, h2, h3]
    rfl
  · intro m p hp hdead
    unfold startMeetingLivingReq
    rw [hp]
    simp [hdead]
  · intro m p hp hdead
    unfold startMeetingLivingReq
    rw [hp]
    simp [hdead]
  · intro m hp
    unfold startMeetingLivingReq
    rw [hp]

/-- C5 witness: the amended start-meeting request characterization on a
concrete living occupant matched to a living player and a concrete
dead-channel occupant. -/
theorem start_meeting_requests_witness :
    (([memberW] ++ [memD]).map Member.userId).Nodup
    ∧ requestsFor memberW.userId
        (start_meeting aliasesW playersW [memberW] [memD] 100)
      = (startMeetingLivingReq aliasesW playersW memberW).toList
    ∧ requestsFor memD.userId
        (start_meeting aliasesW playersW [memberW] [memD] 100)
      = [startMeetingDeadReq 100 memD] := by
  have h := start_meeting_requests aliasesW playersW [memberW] [memD] 100
    (by decide)
  exact ⟨by decide, h.1 memberW (by simp), h.2.1 memD (by simp)⟩

/-! ## C8: mark-dead authorization -/

/-- C8 counterexample: user 7 is an owner but not the round's control
user (3); `Context::is_in_control` accepts it, yet the `"dead"` command
branch of `process_command` rejects it with no mutation and no request —
so "authorization for round-lifecycle commands accepts exactly the
round's control user or an owner" is false for the mark-dead command. -/
theorem dead_command_owner_counterexample :
    (7 : UserId) ∈ [(7 : UserId)]
    ∧ gameC8.ctrlUser ≠ 7
    ∧ Context.is_in_control [7] (some gameC8) 7 = true
    ∧ process_dead (some gameC8) 7 (some 9) (fun _ => none)
        = (some gameC8, [], DeadResp.rejection) := by
  exact ⟨by decide, by decide, by decide, rfl⟩

/-- C8 amended: a mark-dead command from any author other than the
round's control user — in particular from a user who is neither control
user nor owner — changes nothing and yields the rejection reply; the
dead-command authorization accepts exactly the active round's control
user (owners are not accepted by it unless they are the control user),
while `Context::is_in_control` accepts exactly owners and the control
user. -/
theorem dead_command_auth (g : Option Game) (owners : List UserId)
    (author : UserId) (target : Option UserId)
    (cm : UserId → Option Member) :
    ((∀ game, g = some game → game.ctrlUser ≠ author) →
       process_dead g author target cm = (g, [], DeadResp.rejection))
    ∧ (deadAuth g author = true ↔
        ∃ game, g = some game ∧ game.ctrlUser = author)
    ∧ (Context.is_in_control owners g author = true ↔
        author ∈ owners ∨ ∃ game, g = some game ∧ game.ctrlUser = author) := by
  refine ⟨?_, ?_, ?_⟩
  · intro h
    have hfalse : deadAuth g author = false := by
      cases g with
      | none => rfl
      | some game =>
          simp only [deadAuth, beq_eq_false_iff_ne, ne_eq]
          exact h game rfl
    unfold process_dead
    rw [hfalse]
    rfl
  · cases g with
    | none => simp [deadAuth]
    | some game => simp [deadAuth]
  · cases g with
    | none => simp [Context.is_in_control, List.elem_iff]
    | some game => simp [Context.is_in_control, List.elem_iff]

/-- C8 witness: the rejection branch at a concrete non-control author
(user 5, not the control user 3). -/
theorem dead_command_auth_witness :
    process_dead (some gameC8) 5 (some 9) (fun _ => none)
      = (some gameC8, [], DeadResp.rejection) :=
  (dead_command_auth (some gameC8) [] 5 (some 9) (fun _ => none)).1
    (fun game h => by cases h; decide)

/-! ## C9 (continued): request targeting across the orchestration
routines -/

theorem mute_players_split (aliases : UserId → Option String)
    (players : List Player) (living : List Member) (deadChannel : ChannelId) :
    mute_players aliases players living deadChannel
      = living.filterMap (mutePlayersReq aliases players deadChannel) := by
  unfold mute_players match_members_to_players mutePlayersReq
  rw [List.filterMap_map]
  rfl

theorem mutePlayersReq_user (aliases : UserId → Option String)
    (players : List Player) (deadChannel : ChannelId) (mem : Member)
    (r : Request)
    (h : mutePlayersReq aliases players deadChannel mem = some r) :
    r.user = mem.userId := by
  unfold mutePlayersReq at h
  split at h
  · split at h <;> rw [← Option.some.inj h]
  · exact absurd h (by simp)

/-- C9 amended: the context.rs and main.rs occupant lists contain exactly
the non-bot, non-spectator cache entries; the bot.rs occupant list
excludes only bots (spectator-role members are retained there); and every
request each orchestration routine — start-meeting, the mute routine of
start-game/end-meeting, bot.rs end-game, and context.rs end-game — builds
from such lists targets a listed member that passed the list's filter, so
excluded members receive no mute/move request from any of them. -/
theorem members_filter_spec (role : RoleId) (members living dead : List Member)
    (m : Member) (ch : ChannelId) (aliases : UserId → Option String)
    (players : List Player) :
    (m ∈ Context.get_members_in_channel role members ↔
       m ∈ members ∧ m.bot = false ∧ m.roles.contains role = false)
    ∧ (m ∈ main_get_members_in_channel role members ↔
       m ∈ members ∧ m.bot = false ∧ m.roles.contains role = false)
    ∧ (m ∈ Bot.get_members_in_channel members ↔ m ∈ members ∧ m.bot = false)
    ∧ (∀ r ∈ Bot.end_game_requests (Bot.get_members_in_channel living)
          (Bot.get_members_in_channel dead) ch,
        ∃ mem, (mem ∈ living ∨ mem ∈ dead) ∧ mem.bot = false
          ∧ r.user = mem.userId)
    ∧ (∀ r ∈ start_meeting aliases players
          (Bot.get_members_in_channel living)
          (Bot.get_members_in_channel dead) ch,
        ∃ mem, (mem ∈ living ∨ mem ∈ dead) ∧ mem.bot = false
          ∧ r.user = mem.userId)
    ∧ (∀ r ∈ mute_players aliases players
          (Bot.get_members_in_channel living) ch,
        ∃ mem, mem ∈ living ∧ mem.bot = false ∧ r.user = mem.userId)
    ∧ (∀ g req, RemoteCall.updateMember req ∈
          (Context.end_game g (Context.get_members_in_channel role living)
            (Context.get_members_in_channel role dead) ch).2 →
        ∃ mem, (mem ∈ living ∨ mem ∈ dead) ∧ mem.bot = false
          ∧ mem.roles.contains role = false ∧ req.user = mem.userId) := by
  refine ⟨?_, ?_, ?_, ?_, ?_, ?_, ?_⟩
  · simp [Context.get_members_in_channel, List.mem_filter, and_assoc]
  · simp [main_get_members_in_channel, List.mem_filter, and_assoc]
  · simp [Bot.get_members_in_channel, List.mem_filter]
  · intro r hr
    simp only [Bot.end_game_requests, List.mem_append, List.mem_map,
      Bot.get_members_in_channel, List.mem_filter] at hr
    rcases hr with ⟨mem, ⟨hmem, hbot⟩, rfl⟩ | ⟨mem, ⟨hmem, hbot⟩, rfl⟩
    · exact ⟨mem, Or.inl hmem, by simpa using hbot, rfl⟩
    · exact ⟨mem, Or.inr hmem, by simpa using hbot, rfl⟩
  · intro r hr
    rw [start_meeting_split] at hr
    rcases List.mem_append.mp hr with h5 | h5
    · obtain ⟨mem, hmem, hf⟩ := List.mem_filterMap.mp h5
      obtain ⟨hmem2, hbot⟩ := List.mem_filter.mp hmem
      exact ⟨mem, Or.inl hmem2, by simpa using hbot,
        startMeetingLivingReq_user aliases players mem r hf⟩
    · obtain ⟨mem, hmem, rfl⟩ := List.mem_map.mp h5
      obtain ⟨hmem2, hbot⟩ := List.mem_filter.mp hmem
      exact ⟨mem, Or.inr hmem2, by simpa using hbot, rfl⟩
  · intro r hr
    rw [mute_players_split] at hr
    obtain ⟨mem, hmem, hf⟩ := List.mem_filterMap.mp hr
    obtain ⟨hmem2, hbot⟩ := List.mem_filter.mp hmem
    exact ⟨mem, hmem2, by simpa using hbot,
      mutePlayersReq_user aliases players ch mem r hf⟩
  · intro g req hreq
    cases g with
    | none => simp [Context.end_game] at hreq
    | some game =>
        simp only [Context.end_game, List.mem_cons, List.mem_append,
          List.mem_map, Context.get_members_in_channel,
          List.mem_filter] at hreq
        rcases hreq with heq | ⟨mem, ⟨hmem, hb⟩, heq⟩ | ⟨mem, ⟨hmem, hb⟩, heq⟩
        · exact absurd heq (by simp)
        · rw [Bool.and_eq_true] at hb
          injection heq with h2
          subst h2
          exact ⟨mem, Or.inl hmem, by simpa using hb.1,
            by simpa using hb.2, rfl⟩
        · rw [Bool.and_eq_true] at hb
          injection heq with h2
          subst h2
          exact ⟨mem, Or.inr hmem, by simpa using hb.1,
            by simpa using hb.2, rfl⟩

/-- C9 witness: the amended characterization applied to the concrete
spectator-role member. -/
theorem members_filter_spec_witness :
    spectatorW ∈ Bot.get_members_in_channel [spectatorW]
    ∧ ¬ spectatorW ∈ Context.get_members_in_channel 42 [spectatorW] := by
  have h := members_filter_spec 42 [spectatorW] [] [] spectatorW 0
    (fun _ => none) []
  constructor
  · exact h.2.2.1.mpr ⟨by simp, by decide⟩
  · intro hmem
    have := (h.1.mp hmem).2.2
    simp [spectatorW] at this
